import Mathlib

/-!
Verification development for the vectorx light-client bridge core.

Shallow embedding of:
- the authority-set commitment circuit
  (src/circuits-plonky2x/src/builder/justification.rs, verify_authority_set_commitment);
- the justification hint (HintSimpleJustification::hint) and the signature
  decoding path (signature_to_value_type) in the same file;
- the indexer ingestion pipeline (src/bin/indexer.rs, main loop body).

Bytes are modelled as Nat (values < 256 where it matters), byte strings as
List Nat.  External cryptographic primitives (SHA-256, ed25519 verification,
curve-point decoding, SCALE encoding) are not part of this repository's
source; they enter the embedding as explicit function parameters, so every
theorem below holds for all instantiations of those primitives.  A Rust
panic / failed assert is modelled as an explicit abort value (`none`, or
`StepResult.panicked`), distinct from an ordinary rejection.
-/

namespace VectorX

/-! ## Authority-set commitment engine

Embedding of `verify_authority_set_commitment` (justification.rs lines
120-151).  The circuit holds a running pair `(authority_enabled,
commitment_so_far)`; for `i` in `1..MAX` it sets `at_end := (i ==
num_active_authorities)`, conjoins `authority_enabled` with `¬at_end`, hashes
`commitment_so_far || signers[i]`, and keeps the new hash only while still
enabled.  Finally it asserts the supplied digest equals `commitment_so_far`.
`H` stands for the external `curta_sha256` gadget; `signers : Nat → List Nat`
stands for indexing the fixed-capacity `ArrayVariable` of compressed keys. -/

def loopState (H : List Nat → List Nat) (signers : Nat → List Nat)
    (active : Nat) : Nat → Bool × List Nat
  | 0 => (true, H (signers 0))
  | i + 1 =>
    let st := loopState H signers active i
    let atEnd := (i + 1) == active
    let enabled := st.1 && !atEnd
    let chained := H (st.2 ++ signers (i + 1))
    (enabled, if enabled then chained else st.2)

/-- The digest the circuit computes: state after the loop over `1..MAX`. -/
def authoritySetCommitment (H : List Nat → List Nat) (MAX : Nat)
    (signers : Nat → List Nat) (active : Nat) : List Nat :=
  (loopState H signers active (MAX - 1)).2

/-- The final `assert_is_equal`: the constraint is satisfied exactly when the
supplied digest equals the computed commitment. -/
def verifyAuthoritySetCommitment (H : List Nat → List Nat) (MAX : Nat)
    (signers : Nat → List Nat) (active : Nat) (digest : List Nat) : Bool :=
  digest == authoritySetCommitment H MAX signers active

/-- The chained hash as the spec words it: `h[0] = H(authorities[0])`,
`h[i] = H(h[i-1] || authorities[i])` for `i < active_count`, else
`h[i] = h[i-1]`.  Written from the spec's formula for comparison with the
circuit definition above. -/
def specChainedHash (H : List Nat → List Nat) (signers : Nat → List Nat)
    (active : Nat) : Nat → List Nat
  | 0 => H (signers 0)
  | i + 1 =>
    if i + 1 < active then
      H (specChainedHash H signers active i ++ signers (i + 1))
    else
      specChainedHash H signers active i

theorem loopState_eq_spec (H : List Nat → List Nat) (signers : Nat → List Nat)
    (active : Nat) (ha : 1 ≤ active) :
    ∀ i, loopState H signers active i =
      (decide (i < active), specChainedHash H signers active i) := by
  intro i
  induction i with
  | zero =>
    have h0 : 0 < active := ha
    simp [loopState, specChainedHash, h0]
  | succ i ih =>
    have hb : (decide (i < active) && !((i + 1) == active))
        = decide (i + 1 < active) := by
      by_cases h2 : i + 1 = active
      · subst h2
        simp
      · by_cases h1 : i < active
        · have h3 : i + 1 < active := by omega
          simp [h1, h2, h3]
        · have h3 : ¬ i + 1 < active := by omega
          simp [h1, h3]
    rw [loopState, ih]
    simp only [hb]
    rw [specChainedHash]
    by_cases h3 : i + 1 < active
    · simp [h3]
    · simp [h3]

/-- C2: for capacity `MAX ≥ 1`, a key array of length `MAX` and
`1 ≤ active_count ≤ MAX`, the digest accepted by
`verify_authority_set_commitment` is exactly the chained hash
`h[0] = H(authorities[0])`, `h[i] = H(h[i-1] || authorities[i])` for
`i < active_count`, `h[i] = h[i-1]` otherwise, with result `h[MAX-1]`; the
assertion succeeds iff the supplied digest equals this value.  Stated for
every hash function `H` (the source's `curta_sha256` is external). -/
theorem verify_authority_set_commitment_matches_spec
    (H : List Nat → List Nat) (MAX : Nat) (signers : Nat → List Nat)
    (active : Nat) (digest : List Nat)
    (h1 : 1 ≤ active) (hle : active ≤ MAX) :
    verifyAuthoritySetCommitment H MAX signers active digest = true ↔
      digest = specChainedHash H signers active (MAX - 1) := by
  unfold verifyAuthoritySetCommitment authoritySetCommitment
  rw [loopState_eq_spec H signers active h1 (MAX - 1)]
  simp

theorem verify_authority_set_commitment_matches_spec_witness :
    verifyAuthoritySetCommitment (fun l => [l.length]) 3 (fun i => [i]) 2 [2]
      = true :=
  (verify_authority_set_commitment_matches_spec (fun l => [l.length]) 3
    (fun i => [i]) 2 [2] (by decide) (by decide)).mpr (by decide)

/-- With `active_count = 0` the freeze condition `i == num_active_authorities`
never fires for `i ∈ 1..MAX`, so the running state agrees with the
`active_count = MAX` run at every step. -/
theorem loopState_active_zero (H : List Nat → List Nat)
    (signers : Nat → List Nat) (MAX : Nat) :
    ∀ i, i < MAX → loopState H signers 0 i = loopState H signers MAX i := by
  intro i
  induction i with
  | zero => intro _; rfl
  | succ i ih =>
    intro hi
    have h0 : ¬ (i + 1 = 0) := by omega
    have hM : ¬ (i + 1 = MAX) := by omega
    rw [loopState, loopState, ih (by omega)]
    simp [h0, hM]

/-- C8 counterexample: with `active_count = 0` the circuit does silently
produce (and accept) a digest — here the full chained hash over both slots
of a capacity-2 set — contradicting the claim that `active_count = 0` is
rejected. -/
theorem active_zero_accepts_digest :
    verifyAuthoritySetCommitment (fun l => 0 :: l) 2 (fun i => [i + 1]) 0
      [0, 0, 1, 2] = true := by decide

/-- C8 amended: `active_count = 0` is not rejected; the loop never freezes,
so the computed commitment — and hence the set of accepted digests — is the
full-capacity chained hash over all `MAX` slots, identical to the
`active_count = MAX` case. -/
theorem authority_set_commitment_active_zero
    (H : List Nat → List Nat) (MAX : Nat) (signers : Nat → List Nat)
    (hM : 1 ≤ MAX) :
    authoritySetCommitment H MAX signers 0
      = authoritySetCommitment H MAX signers MAX ∧
    ∀ digest, verifyAuthoritySetCommitment H MAX signers 0 digest
      = verifyAuthoritySetCommitment H MAX signers MAX digest := by
  have h := loopState_active_zero H signers MAX (MAX - 1) (by omega)
  constructor
  · unfold authoritySetCommitment
    rw [h]
  · intro digest
    unfold verifyAuthoritySetCommitment authoritySetCommitment
    rw [h]

theorem authority_set_commitment_active_zero_witness :
    authoritySetCommitment (fun l => 0 :: l) 2 (fun i => [i + 1]) 0
      = authoritySetCommitment (fun l => 0 :: l) 2 (fun i => [i + 1]) 2 :=
  (authority_set_commitment_active_zero (fun l => 0 :: l) 2 (fun i => [i + 1])
    (by decide)).1

/-! ## Indexer ingestion pipeline

Embedding of the body of the subscription loop in src/bin/indexer.rs
(lines 122-237).  The results of the external fetches the loop performs —
the header returned for `commit.target_hash` (its number, its `hash()` and
the recomputed `blake2_256` of its encoding), the authority set id read from
storage, and the authority list fetched at `header.number - 1` — are
collected in `FetchedEnv`.  The ed25519 `verify` and the SCALE encoding of
the signed message are external primitives, passed as parameters. -/

structure Precommit where
  target_hash : List Nat
  target_number : Nat
deriving DecidableEq

structure SignedPrecommit where
  precommit : Precommit
  signature : List Nat
  id : List Nat
deriving DecidableEq

structure Commit where
  target_hash : List Nat
  target_number : Nat
  precommits : List SignedPrecommit
deriving DecidableEq

structure GrandpaJustification where
  round : Nat
  commit : Commit
deriving DecidableEq

structure StoredJustificationData where
  block_number : Nat
  signed_message : List Nat
  pubkeys : List (List Nat)
  signatures : List (List Nat)
  num_authorities : Nat
  validator_signed : List Bool
deriving DecidableEq

structure FetchedEnv where
  header_number : Nat
  header_hash : List Nat
  calculated_hash : List Nat
  authority_set_id : Nat
  authorities : List (List Nat)
deriving DecidableEq

/-- Placeholder signature emitted for non-signing authorities.  The constant
`DUMMY_SIGNATURE` is imported from the proof framework and is external to
this repository; only its fixedness matters here, so it is modelled as a
fixed 64-byte value. -/
def DUMMY_SIGNATURE : List Nat := List.replicate 64 0

/-- Save every 90 blocks (indexer.rs line 99). -/
def BLOCK_SAVE_INTERVAL : Nat := 90

/-- Outcome of one iteration of the subscription loop.  `continue`
statements are distinguished by the condition that triggered them;
`panicked` models a Rust panic, which aborts the whole process. -/
inductive StepResult where
  | skippedCadence
  | headerMismatch
  | panicked
  | quorumNotMet
  | persisted (data : StoredJustificationData)
deriving DecidableEq

/-- The signed message (indexer.rs lines 165-169): the SCALE encoding of
`(PrecommitMessage(precommits[0].precommit), round, authority_set_id)`.
`enc` is the external encoder; `headD` is only ever read under a
non-emptiness guard, matching the source's `precommits[0]`. -/
def signedMessageOf (enc : Precommit → Nat → Nat → List Nat)
    (env : FetchedEnv) (j : GrandpaJustification) : List Nat :=
  enc (j.commit.precommits.headD ⟨⟨[], 0⟩, [], []⟩).precommit j.round
    env.authority_set_id

/-- The `filter_map` over precommits (indexer.rs lines 173-192): keep the
`(pubkey, signature)` pair of every precommit whose signature verifies
against the signed message; duplicates are kept as in the source. -/
def validValidators (verify : List Nat → List Nat → List Nat → Bool)
    (signed_message : List Nat) (precommits : List SignedPrecommit) :
    List (List Nat × List Nat) :=
  precommits.filterMap fun p =>
    if verify p.signature signed_message p.id then some (p.id, p.signature)
    else none

/-- The `pubkey_to_signature` hash map (indexer.rs lines 198-201): pairs are
inserted in order, a later insert for the same key overwriting an earlier
one, so a lookup returns the last matching pair. -/
def pubkeyToSignature (validators : List (List Nat × List Nat))
    (pk : List Nat) : Option (List Nat) :=
  ((validators.filter fun v => v.1 == pk).getLast?).map fun v => v.2

/-- The record-construction loop (indexer.rs lines 212-225): iterate the
authority set in order; a signing authority contributes its real signature
and `true`, any other authority the dummy signature and `false`. -/
def buildJustificationFields (authorities : List (List Nat))
    (lookup : List Nat → Option (List Nat)) :
    List (List Nat) × List (List Nat) × List Bool :=
  (authorities.map fun a => a,
   authorities.map fun a =>
     match lookup a with
     | some s => s
     | none => DUMMY_SIGNATURE,
   authorities.map fun a => (lookup a).isSome)

/-- The valid-signer mapping of an event: `pubkey_to_signature` built from
the filtered precommits of the event's justification. -/
def signerLookup (verify : List Nat → List Nat → List Nat → Bool)
    (enc : Precommit → Nat → Nat → List Nat)
    (env : FetchedEnv) (j : GrandpaJustification) :
    List Nat → Option (List Nat) :=
  pubkeyToSignature
    (validValidators verify (signedMessageOf enc env j) j.commit.precommits)

/-- The `StoredJustificationData` value built for an accepted event
(indexer.rs lines 228-235). -/
def recordOf (verify : List Nat → List Nat → List Nat → Bool)
    (enc : Precommit → Nat → Nat → List Nat)
    (env : FetchedEnv) (j : GrandpaJustification) : StoredJustificationData :=
  let fields := buildJustificationFields env.authorities
    (signerLookup verify enc env j)
  { block_number := env.header_number
    signed_message := signedMessageOf enc env j
    pubkeys := fields.1
    signatures := fields.2.1
    num_authorities := env.authorities.length
    validator_signed := fields.2.2 }

/-- One iteration of the subscription loop (indexer.rs lines 122-237), in
source order: cadence filter, header-hash consistency check, signed-message
construction (the source's unguarded `precommits[0]` panics on an empty
vector, modelled by the emptiness test returning `panicked`), signature
filtering, quorum check over the unfiltered `pubkeys` count, record
construction. -/
def indexerStep (verify : List Nat → List Nat → List Nat → Bool)
    (enc : Precommit → Nat → Nat → List Nat)
    (env : FetchedEnv) (j : GrandpaJustification) : StepResult :=
  if j.commit.target_number % BLOCK_SAVE_INTERVAL ≠ 0 then .skippedCadence
  else if env.header_hash ≠ env.calculated_hash then .headerMismatch
  else if j.commit.precommits = [] then .panicked
  else if 3 * ((validValidators verify (signedMessageOf enc env j)
      j.commit.precommits).map fun v => v.1).length
      < env.authorities.length * 2 then .quorumNotMet
  else .persisted (recordOf verify enc env j)

/-- The subscription loop over a stream of events: each event is processed
by `indexerStep`; an ordinary outcome lets the loop continue with the next
event, while a panic terminates the whole process. -/
def runPipeline (verify : List Nat → List Nat → List Nat → Bool)
    (enc : Precommit → Nat → Nat → List Nat) :
    List (FetchedEnv × GrandpaJustification) → List StepResult
  | [] => []
  | (env, j) :: rest =>
    let r := indexerStep verify enc env j
    if r = .panicked then [r]
    else r :: runPipeline verify enc rest

/-! ### Concrete instances used by witnesses and counterexamples -/

/-- A signature check accepting everything: the strongest adversarial
instantiation of the external ed25519 primitive. -/
def verifyAll : List Nat → List Nat → List Nat → Bool := fun _ _ _ => true

/-- A concrete stand-in for the external SCALE encoder. -/
def encDemo : Precommit → Nat → Nat → List Nat :=
  fun p r s => p.target_number :: r :: s :: p.target_hash

def envThree : FetchedEnv :=
  { header_number := 90
    header_hash := [7]
    calculated_hash := [7]
    authority_set_id := 5
    authorities := [[10], [11], [12]] }

def spDup : SignedPrecommit :=
  { precommit := { target_hash := [7], target_number := 90 }
    signature := [1]
    id := [10] }

/-- A justification whose two precommit entries are the same valid vote by
the same signer. -/
def jDup : GrandpaJustification :=
  { round := 1
    commit := { target_hash := [7], target_number := 90
                precommits := [spDup, spDup] } }

/-- A justification with an empty precommit list at a save-cadence block. -/
def jEmpty : GrandpaJustification :=
  { round := 1
    commit := { target_hash := [7], target_number := 90, precommits := [] } }

/-- A justification off the save cadence. -/
def jOff : GrandpaJustification :=
  { round := 1
    commit := { target_hash := [7], target_number := 91
                precommits := [spDup] } }

def envMismatch : FetchedEnv :=
  { header_number := 90
    header_hash := [1]
    calculated_hash := [2]
    authority_set_id := 5
    authorities := [[10]] }

def envOne : FetchedEnv :=
  { header_number := 90
    header_hash := [7]
    calculated_hash := [7]
    authority_set_id := 5
    authorities := [[10]] }

/-- A justification whose claimed target_hash differs from the hash of the
header that the node returned for it. -/
def jWrongTarget : GrandpaJustification :=
  { round := 1
    commit := { target_hash := [9], target_number := 90
                precommits := [{ precommit := { target_hash := [9],
                                                target_number := 90 }
                                 signature := [1]
                                 id := [10] }] } }

/-! ### Pipeline theorems -/

/-- Inversion: a persisted outcome is exactly the record `recordOf` builds. -/
theorem indexerStep_persisted_eq
    (verify : List Nat → List Nat → List Nat → Bool)
    (enc : Precommit → Nat → Nat → List Nat)
    (env : FetchedEnv) (j : GrandpaJustification)
    (r : StoredJustificationData)
    (h : indexerStep verify enc env j = .persisted r) :
    r = recordOf verify enc env j := by
  rw [indexerStep] at h
  split at h
  · exact StepResult.noConfusion h
  · split at h
    · exact StepResult.noConfusion h
    · split at h
      · exact StepResult.noConfusion h
      · split at h
        · exact StepResult.noConfusion h
        · exact (StepResult.persisted.injEq _ _ ▸ congrArg id h).symm

/-- C9: the cadence filter is applied first, with `K = 90`: for every event,
the outcome is `skippedCadence` exactly when the target block number is not
a multiple of `BLOCK_SAVE_INTERVAL`, and this holds uniformly in the fetched
environment — an off-cadence event is skipped no matter what any fetch
would return, so no fetched data influences (or is needed for) the skip. -/
theorem cadence_filter_first
    (verify : List Nat → List Nat → List Nat → Bool)
    (enc : Precommit → Nat → Nat → List Nat) (j : GrandpaJustification) :
    BLOCK_SAVE_INTERVAL = 90 ∧
    ∀ env : FetchedEnv,
      (indexerStep verify enc env j = .skippedCadence ↔
        j.commit.target_number % BLOCK_SAVE_INTERVAL ≠ 0) := by
  refine ⟨rfl, fun env => ⟨fun h => ?_, fun hc => by rw [indexerStep, if_pos hc]⟩⟩
  by_contra hc
  rw [indexerStep, if_neg (by omega)] at h
  split at h
  · exact StepResult.noConfusion h
  · split at h
    · exact StepResult.noConfusion h
    · split at h
      · exact StepResult.noConfusion h
      · exact StepResult.noConfusion h

theorem cadence_filter_first_witness :
    indexerStep verifyAll encDemo envThree jOff = .skippedCadence :=
  ((cadence_filter_first verifyAll encDemo jOff).2 envThree).mpr (by decide)

/-- C7 counterexample: an event whose claimed `target_hash` differs from the
fetched header's hash (and from the recomputed hash) is nevertheless
processed to completion and persisted — the pipeline never compares the
header's hash with the justification's `target_hash`, only the header's own
hash with the recomputed one. -/
theorem c7_target_hash_not_checked :
    jWrongTarget.commit.target_hash ≠ envOne.header_hash ∧
    jWrongTarget.commit.target_hash ≠ envOne.calculated_hash ∧
    indexerStep verifyAll encDemo envOne jWrongTarget
      = .persisted (recordOf verifyAll encDemo envOne jWrongTarget) :=
  ⟨by decide, by decide, rfl⟩

/-- C7 amended: the pipeline asserts that the fetched header's own hash
equals the independently recomputed hash of the header bytes (the claimed
`target_hash` serves only as the fetch key and is not itself compared); on
mismatch, processing of that event only is aborted — nothing is persisted —
and the pipeline continues with the next event without crashing. -/
theorem header_mismatch_drops_event_only
    (verify : List Nat → List Nat → List Nat → Bool)
    (enc : Precommit → Nat → Nat → List Nat)
    (env : FetchedEnv) (j : GrandpaJustification)
    (rest : List (FetchedEnv × GrandpaJustification))
    (hc : j.commit.target_number % BLOCK_SAVE_INTERVAL = 0)
    (hm : env.header_hash ≠ env.calculated_hash) :
    indexerStep verify enc env j = .headerMismatch ∧
    runPipeline verify enc ((env, j) :: rest)
      = .headerMismatch :: runPipeline verify enc rest := by
  have h1 : indexerStep verify enc env j = .headerMismatch := by
    rw [indexerStep, if_neg (by simp [hc]), if_pos hm]
  refine ⟨h1, ?_⟩
  rw [runPipeline]
  simp [h1]

theorem header_mismatch_drops_event_only_witness :
    indexerStep verifyAll encDemo envMismatch jDup = .headerMismatch ∧
    runPipeline verifyAll encDemo [(envMismatch, jDup), (envOne, jDup)]
      = .headerMismatch :: runPipeline verifyAll encDemo [(envOne, jDup)] :=
  header_mismatch_drops_event_only verifyAll encDemo envMismatch jDup
    [(envOne, jDup)] (by decide) (by decide)

/-- C1 (code bug): the quorum check at indexer.rs line 207 counts the
unfiltered `pubkeys` list, in which duplicate valid precommits by one signer
appear once each.  With three authorities and a justification consisting of
the same valid vote by one authority twice, the code accepts and persists
(`3*2 ≥ 2*3`), although the number of valid distinct signers is 1 and
`3*1 < 2*3` — the inclusive-threshold quorum over distinct signers that the
claim states is violated. -/
theorem quorum_counts_duplicate_signers :
    indexerStep verifyAll encDemo envThree jDup
      = .persisted (recordOf verifyAll encDemo envThree jDup) ∧
    ((validValidators verifyAll (signedMessageOf encDemo envThree jDup)
      jDup.commit.precommits).map fun v => v.1).dedup.length = 1 ∧
    3 * 1 < envThree.authorities.length * 2 :=
  ⟨rfl, by decide, by decide⟩

/-- C4 (code bug): a justification with an empty precommit list reaches the
unguarded `precommits[0]` at indexer.rs line 166 and panics, aborting the
whole process — the event is not dropped with a `MalformedEvidence`-style
rejection, and no later event is processed. -/
theorem empty_precommits_panic :
    indexerStep verifyAll encDemo envThree jEmpty = .panicked ∧
    runPipeline verifyAll encDemo [(envThree, jEmpty), (envThree, jDup)]
      = [.panicked] :=
  ⟨rfl, rfl⟩

theorem getD_map_of_lt {β : Type} (f : List Nat → β) (l : List (List Nat))
    (i : Nat) (hi : i < l.length) (d : β) :
    (l.map f).getD i d = f (l.getD i []) := by
  rw [List.getD_eq_getElem _ _ (by simpa using hi),
    List.getD_eq_getElem _ _ hi]
  simp

theorem recordOf_pubkeys (verify : List Nat → List Nat → List Nat → Bool)
    (enc : Precommit → Nat → Nat → List Nat)
    (env : FetchedEnv) (j : GrandpaJustification) :
    (recordOf verify enc env j).pubkeys
      = env.authorities.map fun a => a := rfl

theorem recordOf_signatures (verify : List Nat → List Nat → List Nat → Bool)
    (enc : Precommit → Nat → Nat → List Nat)
    (env : FetchedEnv) (j : GrandpaJustification) :
    (recordOf verify enc env j).signatures
      = env.authorities.map fun a =>
          match signerLookup verify enc env j a with
          | some s => s
          | none => DUMMY_SIGNATURE := rfl

theorem recordOf_validator_signed
    (verify : List Nat → List Nat → List Nat → Bool)
    (enc : Precommit → Nat → Nat → List Nat)
    (env : FetchedEnv) (j : GrandpaJustification) :
    (recordOf verify enc env j).validator_signed
      = env.authorities.map fun a => (signerLookup verify enc env j a).isSome
      := rfl

/-- C5: every persisted record is padded to the authority-set size: the
pubkeys, signatures and validator_signed sequences each have length exactly
the number of authorities, position `i` holds the `i`-th authority's key in
authority-set order, and holds its real signature with `validator_signed =
true` when that authority is in the valid-signer mapping, otherwise the
fixed placeholder signature with `validator_signed = false`. -/
theorem persisted_record_shape
    (verify : List Nat → List Nat → List Nat → Bool)
    (enc : Precommit → Nat → Nat → List Nat)
    (env : FetchedEnv) (j : GrandpaJustification)
    (r : StoredJustificationData)
    (h : indexerStep verify enc env j = .persisted r) :
    r.pubkeys.length = env.authorities.length ∧
    r.signatures.length = env.authorities.length ∧
    r.validator_signed.length = env.authorities.length ∧
    ∀ i, i < env.authorities.length →
      r.pubkeys.getD i [] = env.authorities.getD i [] ∧
      (∀ s, signerLookup verify enc env j (env.authorities.getD i [])
          = some s →
        r.signatures.getD i [] = s ∧ r.validator_signed.getD i false = true) ∧
      (signerLookup verify enc env j (env.authorities.getD i []) = none →
        r.signatures.getD i [] = DUMMY_SIGNATURE ∧
        r.validator_signed.getD i false = false) := by
  have hr := indexerStep_persisted_eq verify enc env j r h
  subst hr
  rw [recordOf_pubkeys, recordOf_signatures, recordOf_validator_signed]
  refine ⟨by simp, by simp, by simp, fun i hi => ?_⟩
  refine ⟨by rw [getD_map_of_lt _ _ i hi], fun s hs => ?_, fun hn => ?_⟩
  · rw [getD_map_of_lt _ _ i hi, getD_map_of_lt _ _ i hi, hs]
    exact ⟨rfl, rfl⟩
  · rw [getD_map_of_lt _ _ i hi, getD_map_of_lt _ _ i hi, hn]
    exact ⟨rfl, rfl⟩

theorem persisted_record_shape_witness :
    (recordOf verifyAll encDemo envThree jDup).pubkeys.length
      = envThree.authorities.length :=
  (persisted_record_shape verifyAll encDemo envThree jDup
    (recordOf verifyAll encDemo envThree jDup) rfl).1

/-! ## Signature decoding and the justification hint

Embedding of `signature_to_value_type` and `HintSimpleJustification::hint`
(justification.rs lines 24-33 and 42-97).  A Rust panic or failed assert is
modelled as `none`; every non-aborting path of `signature_to_value_type`
returns a decoded value — the function has no failure-as-value path. -/

/-- Little-endian byte-string to number, the value of
`BigUint::from_bytes_le`.  Its `to_u32_digits()` is empty exactly when this
value is zero. -/
def fromBytesLE (bs : List Nat) : Nat :=
  bs.foldr (fun b acc => b + 256 * acc) 0

/-- Embedding of `signature_to_value_type` (justification.rs lines 24-33):
decode `R` from bytes 0..32 — the `assert!(sig_r.is_valid())` aborts when
the compressed point is invalid — then read `s` from bytes 32..64 and panic
when its limb list is empty (i.e. the value is zero).  `pointIsValid`
stands for the external curve-point validity check. -/
def signature_to_value_type (pointIsValid : List Nat → Bool)
    (sig_bytes : List Nat) : Option (List Nat × Nat) :=
  let sig_r := sig_bytes.take 32
  if !pointIsValid sig_r then none
  else
    let sig_s := fromBytesLE (sig_bytes.drop 32)
    if sig_s == 0 then none
    else some (sig_r, sig_s)

/-- C3 (code bug): a 64-byte signature whose `s` half is all zeros makes
`signature_to_value_type` abort (the source's `panic!` on an empty limb
list), whatever the point-validity primitive says about its `R` half —
rather than yielding an ordinary verification failure. -/
theorem zero_s_signature_aborts (pointIsValid : List Nat → Bool) :
    signature_to_value_type pointIsValid (List.replicate 64 0) = none := by
  have hdrop : fromBytesLE ((List.replicate 64 0).drop 32) = 0 := by rfl
  simp only [signature_to_value_type, hdrop]
  cases pointIsValid ((List.replicate 64 0).take 32) <;> simp

structure SimpleJustificationData where
  authority_set_id : Nat
  signed_message : List Nat
  pubkeys : List (List Nat)
  signatures : List (List Nat)
  validator_signed : List Bool
  num_authorities : Nat
deriving DecidableEq

structure HintOutputs where
  encoded_precommit : List Nat
  validator_signed : List Bool
  signatures : List (List Nat × Nat)
  pubkeys : List (List Nat)
  num_authorities : Nat
deriving DecidableEq

/-- Decoding of the whole signature array through
`signature_to_value_type`; any aborting entry aborts the hint. -/
def decodeSignatures (pointIsValid : List Nat → Bool) :
    List (List Nat) → Option (List (List Nat × Nat))
  | [] => some []
  | s :: rest =>
    match signature_to_value_type pointIsValid s,
        decodeSignatures pointIsValid rest with
    | some v, some vs => some (v :: vs)
    | _, _ => none

/-- Embedding of `HintSimpleJustification::hint` (justification.rs lines
42-97), in source order: panic when the fetched response's authority set id
differs from the requested one; panic when the returned signed message does
not have length `ENCODED_PRECOMMIT_LENGTH`; re-run signature verification
on signature 0 against the returned signed message (indexing `pubkeys[0]`
and `signatures[0]` panics on empty arrays); then write the outputs.
Modelled from the spec for the one missing piece: `verify_signature` lives
in the crate's input module, which is not under src/ — per the spec the
consumer re-runs signature verification and the whole computation fails on
failure, so it is the parameter `verifyOk`, whose failure aborts the hint.
`encLen` stands for the constant `ENCODED_PRECOMMIT_LENGTH` (crate consts
module, also not under src/). -/
def hintSimpleJustification (verifyOk : List Nat → List Nat → List Nat → Bool)
    (pointIsValid : List Nat → Bool) (encLen : Nat)
    (requested_authority_set_id : Nat) (d : SimpleJustificationData) :
    Option HintOutputs :=
  if d.authority_set_id ≠ requested_authority_set_id then none
  else if d.signed_message.length ≠ encLen then none
  else if d.pubkeys = [] ∨ d.signatures = [] then none
  else if verifyOk (d.pubkeys.headD []) d.signed_message
      (d.signatures.headD []) = false then none
  else
    (decodeSignatures pointIsValid d.signatures).map fun decoded =>
      { encoded_precommit := d.signed_message
        validator_signed := d.validator_signed
        signatures := decoded
        pubkeys := d.pubkeys
        num_authorities := d.num_authorities }

/-- C6: the hint re-asserts that the fetched response's authority set id
equals the requested one — on mismatch the whole computation fails before
producing any output, never silently substituting — and any produced output
implies that signature verification was re-run successfully on the first
returned signature against the returned signed message. -/
theorem hint_rechecks_response
    (verifyOk : List Nat → List Nat → List Nat → Bool)
    (pointIsValid : List Nat → Bool) (encLen : Nat)
    (req : Nat) (d : SimpleJustificationData) :
    (d.authority_set_id ≠ req →
      hintSimpleJustification verifyOk pointIsValid encLen req d = none) ∧
    (∀ out, hintSimpleJustification verifyOk pointIsValid encLen req d
        = some out →
      d.authority_set_id = req ∧
      d.pubkeys ≠ [] ∧ d.signatures ≠ [] ∧
      verifyOk (d.pubkeys.headD []) d.signed_message (d.signatures.headD [])
        = true) := by
  constructor
  · intro hne
    rw [hintSimpleJustification, if_pos hne]
  · intro out h
    rw [hintSimpleJustification] at h
    by_cases h1 : d.authority_set_id ≠ req
    · rw [if_pos h1] at h
      exact Option.noConfusion h
    · rw [if_neg h1] at h
      by_cases h2 : d.signed_message.length ≠ encLen
      · rw [if_pos h2] at h
        exact Option.noConfusion h
      · rw [if_neg h2] at h
        by_cases h3 : d.pubkeys = [] ∨ d.signatures = []
        · rw [if_pos h3] at h
          exact Option.noConfusion h
        · rw [if_neg h3] at h
          by_cases h4 : verifyOk (d.pubkeys.headD []) d.signed_message
              (d.signatures.headD []) = false
          · rw [if_pos h4] at h
            exact Option.noConfusion h
          · push_neg at h3
            refine ⟨by omega, h3.1, h3.2, ?_⟩
            cases hv : verifyOk (d.pubkeys.headD []) d.signed_message
                (d.signatures.headD [])
            · exact absurd hv h4
            · rfl

theorem hint_rechecks_response_witness :
    hintSimpleJustification verifyAll (fun _ => true) 3 1
      { authority_set_id := 2
        signed_message := [0, 1, 2]
        pubkeys := [[10]]
        signatures := [[1]]
        validator_signed := [true]
        num_authorities := 1 } = none :=
  (hint_rechecks_response verifyAll (fun _ => true) 3 1 _).1 (by decide)

/-- C10: when the returned signed message's length differs from
`ENCODED_PRECOMMIT_LENGTH` the hint aborts before writing any output, and
any produced output carries an encoded precommit of exactly that length. -/
theorem hint_length_guard
    (verifyOk : List Nat → List Nat → List Nat → Bool)
    (pointIsValid : List Nat → Bool) (encLen : Nat)
    (req : Nat) (d : SimpleJustificationData) :
    (d.signed_message.length ≠ encLen →
      hintSimpleJustification verifyOk pointIsValid encLen req d = none) ∧
    (∀ out, hintSimpleJustification verifyOk pointIsValid encLen req d
        = some out →
      out.encoded_precommit = d.signed_message ∧
      out.encoded_precommit.length = encLen) := by
  constructor
  · intro hne
    rw [hintSimpleJustification]
    by_cases h1 : d.authority_set_id ≠ req
    · rw [if_pos h1]
    · rw [if_neg h1, if_pos hne]
  · intro out h
    rw [hintSimpleJustification] at h
    by_cases h1 : d.authority_set_id ≠ req
    · rw [if_pos h1] at h
      exact Option.noConfusion h
    · rw [if_neg h1] at h
      by_cases h2 : d.signed_message.length ≠ encLen
      · rw [if_pos h2] at h
        exact Option.noConfusion h
      · rw [if_neg h2] at h
        by_cases h3 : d.pubkeys = [] ∨ d.signatures = []
        · rw [if_pos h3] at h
          exact Option.noConfusion h
        · rw [if_neg h3] at h
          by_cases h4 : verifyOk (d.pubkeys.headD []) d.signed_message
              (d.signatures.headD []) = false
          · rw [if_pos h4] at h
            exact Option.noConfusion h
          · rw [if_neg h4] at h
            rcases hdec : decodeSignatures pointIsValid d.signatures
              with _ | decoded
            · rw [hdec] at h
              exact Option.noConfusion h
            · rw [hdec] at h
              simp only [Option.map_some', Option.some.injEq] at h
              refine ⟨?_, ?_⟩
              · rw [← h]
              · rw [← h]
                show d.signed_message.length = encLen
                omega

theorem hint_length_guard_witness :
    hintSimpleJustification verifyAll (fun _ => true) 3 1
      { authority_set_id := 1
        signed_message := [0, 1]
        pubkeys := [[10]]
        signatures := [[1]]
        validator_signed := [true]
        num_authorities := 1 } = none :=
  (hint_length_guard verifyAll (fun _ => true) 3 1 _).1 (by decide)

